import Mathlib

/-!
Shallow embedding of the read-path query router of `v1/services/storage/store.go`
(InfluxDB v2, v1 storage service): shard resolution, request validation,
predicate translation and the tag-key/tag-value/field-name entry points.

Go slices that the source distinguishes from `nil` are modelled as
`Option (List _)` (`none` = nil slice); Go `(T, error)` returns are modelled as
`Except String T`; interface values that may be a nil interface are modelled as
`Option _` inside the `Except`.  Collaborator interfaces (meta client, TSDB
store, cursor constructors) are records of functions, so every theorem
quantifies over all collaborator behaviours.
-/

namespace InfluxStorage

/-- Native expression binary operators (the influxql fragment this model uses). -/
inductive BinOp where
  | eq | neq | lt | lte | gt | gte | and | or
deriving DecidableEq, Repr

/-- The storage engine's native expression tree (influxql.Expr fragment:
variable references, string/integer/boolean literals, binary and paren
expressions). -/
inductive Expr where
  | varRef (val : String)
  | stringLit (val : String)
  | intLit (val : Int)
  | boolLit (val : Bool)
  | binary (op : BinOp) (lhs rhs : Expr)
  | paren (child : Expr)
deriving DecidableEq, Repr

/-- Modelled from the spec: the reserved measurement tag key constant
(`measurementKey`, defined in a repository file not under src; §8 gives its
value `"_measurement"`). -/
def measurementKey : String := "_measurement"

/-- Modelled from the spec: the reserved field tag key constant (`fieldKey`,
defined in a repository file not under src; §8 gives its value `"_field"`). -/
def fieldKey : String := "_field"

/-- Modelled from the spec: the reserved marker for a reference to a field
value (spec §4.3: a predicate "references a field **value** (e.g. `_value = X`)"). -/
def fieldValueKey : String := "_value"

/-- Modelled from the spec: the fixed reserved-name remap table
(`measurementRemap`, defined in a repository file not under src): the
wire-level measurement tag names map to the engine's internal `_name` key and
the wire-level field tag marker maps to `_field` (spec §4.3). -/
def measurementRemap : String → Option String
  | "_measurement" => some "_name"
  | "\x00" => some "_name"
  | "\xff" => some "_field"
  | _ => none

/-- Wire predicate comparison operators. -/
inductive WComp where
  | eq | neq | lt | lte | gt | gte
deriving DecidableEq, Repr

/-- Wire predicate logical operators. -/
inductive WLogical where
  | and | or
deriving DecidableEq, Repr

/-- The wire-encoded predicate tree (`datatypes.Node` fragment): logical and
comparison nodes over tag references, a field-value reference, and literals. -/
inductive Node where
  | logical (op : WLogical) (lhs rhs : Node)
  | comparison (op : WComp) (lhs rhs : Node)
  | tagRef (name : String)
  | fieldRefValue
  | stringLit (val : String)
  | intLit (val : Int)
  | boolLit (val : Bool)
  | paren (child : Node)
deriving DecidableEq, Repr

def wcompToBinOp : WComp → BinOp
  | .eq => .eq
  | .neq => .neq
  | .lt => .lt
  | .lte => .lte
  | .gt => .gt
  | .gte => .gte

def wlogicalToBinOp : WLogical → BinOp
  | .and => .and
  | .or => .or

/-- Modelled from the spec: `reads.NodeToExpr` (storage/reads package of this
repository, not under src) converts the wire predicate tree node-by-node into
the engine's native expression, applying the reserved-name remap table during
leaf conversion; a field-value reference becomes the reserved field-value
variable (spec §4.3). -/
def NodeToExpr (node : Node) (remap : String → Option String) : Except String Expr :=
  match node with
  | .logical op lhs rhs =>
    match NodeToExpr lhs remap, NodeToExpr rhs remap with
    | .ok l, .ok r => .ok (.binary (wlogicalToBinOp op) l r)
    | .error e, _ => .error e
    | _, .error e => .error e
  | .comparison op lhs rhs =>
    match NodeToExpr lhs remap, NodeToExpr rhs remap with
    | .ok l, .ok r => .ok (.binary (wcompToBinOp op) l r)
    | .error e, _ => .error e
    | _, .error e => .error e
  | .tagRef name => .ok (.varRef ((remap name).getD name))
  | .fieldRefValue => .ok (.varRef fieldValueKey)
  | .stringLit v => .ok (.stringLit v)
  | .intLit v => .ok (.intLit v)
  | .boolLit v => .ok (.boolLit v)
  | .paren child =>
    match NodeToExpr child remap with
    | .ok c => .ok (.paren c)
    | .error e => .error e

/-- Whether the expression contains a variable reference with the given name. -/
def hasVarRef (name : String) : Expr → Bool
  | .varRef v => v == name
  | .binary _ lhs rhs => hasVarRef name lhs || hasVarRef name rhs
  | .paren child => hasVarRef name child
  | _ => false

/-- Modelled from the spec: `reads.HasFieldValueKey` (storage/reads package,
not under src) reports whether the translated predicate references a field
value. -/
def HasFieldValueKey (e : Expr) : Bool := hasVarRef fieldValueKey e

/-- Modelled from the spec: `reads.IsTrueBooleanLiteral` (storage/reads
package, not under src) recognises the literal boolean `true` expression. -/
def IsTrueBooleanLiteral : Expr → Bool
  | .boolLit b => b
  | _ => false

/-- Modelled from the spec: `HasFieldKeyOrValue` (predicate helpers of this
repository, not under src) reports whether the expression references the field
key marker and whether it references the field value marker (spec §4.6). -/
def HasFieldKeyOrValue (e : Expr) : Bool × Bool :=
  (hasVarRef fieldKey e, hasVarRef fieldValueKey e)

/-- All variable references occurring in the expression. -/
def exprVarRefs : Expr → List String
  | .varRef v => [v]
  | .binary _ lhs rhs => exprVarRefs lhs ++ exprVarRefs rhs
  | .paren child => exprVarRefs child
  | _ => []

/-- Modelled from the spec: `hasTagKey` (predicate helpers of this repository,
not under src) reports whether the expression references any ordinary tag key,
i.e. any variable reference other than the reserved measurement / field-key /
field-value markers (spec §4.6: "references *any* tag key at all"). -/
def hasTagKey (e : Expr) : Bool :=
  (exprVarRefs e).any (fun v => !(v == "_name" || v == fieldKey || v == fieldValueKey))

/-- Pure model of `influxql.CloneExpr`: the tree is immutable data here. -/
def cloneExpr (e : Expr) : Expr := e

/-- Modelled from the spec: `RewriteExprRemoveFieldKeyAndValue` (predicate
helpers of this repository, not under src) structurally removes any reference
to the field-key or field-value marker by replacing, bottom-up, every binary
expression whose left-hand side is such a reference with the literal `true`
(spec §4.3). -/
def RewriteExprRemoveFieldKeyAndValue : Expr → Expr
  | .binary op lhs rhs =>
    let l := RewriteExprRemoveFieldKeyAndValue lhs
    let r := RewriteExprRemoveFieldKeyAndValue rhs
    match l with
    | .varRef v =>
      if v == fieldKey || v == fieldValueKey then .boolLit true
      else .binary op (.varRef v) r
    | _ => .binary op l r
  | .paren child => .paren (RewriteExprRemoveFieldKeyAndValue child)
  | e => e

/-- One constant-folding step of the external influxql library's `Reduce`
(with a nil valuer), restricted to the literal kinds of this model: folding
happens only when the left-hand side is already a literal. -/
def reduceBinary (op : BinOp) (l r : Expr) : Expr :=
  match l, r with
  | .boolLit a, .boolLit b =>
    match op with
    | .and => .boolLit (a && b)
    | .or => .boolLit (a || b)
    | .eq => .boolLit (a == b)
    | .neq => .boolLit (a != b)
    | _ => .binary op (.boolLit a) (.boolLit b)
  | .boolLit a, rhs =>
    match op with
    | .and => if a then rhs else .binary op (.boolLit a) rhs
    | .or => if !a then rhs else .binary op (.boolLit a) rhs
    | _ => .binary op (.boolLit a) rhs
  | .intLit a, .intLit b =>
    match op with
    | .eq => .boolLit (a == b)
    | .neq => .boolLit (a != b)
    | .lt => .boolLit (decide (a < b))
    | .lte => .boolLit (decide (a ≤ b))
    | .gt => .boolLit (decide (b < a))
    | .gte => .boolLit (decide (b ≤ a))
    | _ => .binary op (.intLit a) (.intLit b)
  | .stringLit a, .stringLit b =>
    match op with
    | .eq => .boolLit (a == b)
    | .neq => .boolLit (a != b)
    | _ => .binary op (.stringLit a) (.stringLit b)
  | lhs, rhs => .binary op lhs rhs

/-- Model of the external influxql library's `Reduce` with a nil valuer:
recursive constant folding; a paren whose body does not stay a binary
expression is unwrapped. -/
def reduce : Expr → Expr
  | .binary op lhs rhs => reduceBinary op (reduce lhs) (reduce rhs)
  | .paren child =>
    match reduce child with
    | .binary op l r => .paren (.binary op l r)
    | e => e
  | e => e

/-- Modelled from the spec: `models.MinNanoTime`, the storage engine's absolute
minimum representable nanosecond timestamp (spec §4.1). -/
def MinNanoTime : Int := -9223372036854775806

/-- Modelled from the spec: `models.MaxNanoTime`, the storage engine's absolute
maximum representable nanosecond timestamp (spec §4.1). -/
def MaxNanoTime : Int := 9223372036854775806

/-- Modelled from the spec: `meta.DefaultRetentionPolicyName` — the service's
single default retention policy name for a bucket (spec §3; §8's scenario names
it `autogen`). -/
def DefaultRetentionPolicyName : String := "autogen"

/-- Modelled from the spec: `influxdb.ID.String` renders an identifier as its
16-digit hexadecimal name (empty for the invalid zero ID); the spec only
requires that the database name be "derived deterministically from the bucket
ID" (spec §4.1). -/
def idString (id : Nat) : String :=
  if id = 0 then ""
  else
    let digits := Nat.toDigits 16 id
    String.mk (List.replicate (16 - digits.length) '0' ++ digits)

/-- The query authorizer; the source always passes `query.OpenAuthorizer`. -/
inductive Authorizer where
  | openAuthorizer
deriving DecidableEq, Repr

def openAuth : Authorizer := .openAuthorizer

/-- `meta.ShardOwner`-level shard info: only the ID is read by this core. -/
structure ShardInfo where
  ID : Nat
deriving DecidableEq, Repr

/-- `meta.ShardGroupInfo`: a time-spanning group owning a set of shards. -/
structure ShardGroupInfo where
  StartTime : Int
  EndTime : Int
  Shards : List ShardInfo
deriving DecidableEq, Repr

instance shardGroupLeDecidable :
    DecidableRel (fun (a b : ShardGroupInfo) => a.StartTime ≤ b.StartTime) :=
  fun a b => Int.decLe a.StartTime b.StartTime

instance shardGroupGeDecidable :
    DecidableRel (fun (a b : ShardGroupInfo) => b.StartTime ≤ a.StartTime) :=
  fun a b => Int.decLe b.StartTime a.StartTime

/-- `meta.DatabaseInfo`: only the retention policy names are consulted here. -/
structure DatabaseInfo where
  RetentionPolicies : List String
deriving DecidableEq, Repr

/-- `meta.DatabaseInfo.RetentionPolicy`: look up a retention policy by name,
absent when the database has no policy of that name. -/
def DatabaseInfo.RetentionPolicy (di : DatabaseInfo) (name : String) : Option String :=
  di.RetentionPolicies.find? (fun n => n == name)

/-- The `MetaClient` collaborator interface (metadata service). -/
structure MetaClientI where
  Database : String → Option DatabaseInfo
  ShardGroupsByTimeRange : String → String → Int → Int → Except String (List ShardGroupInfo)

/-- One `tsdb.TagKeys` element: the tag keys reported for one measurement. -/
structure TagKeysResult where
  keys : List String
deriving DecidableEq, Repr

/-- One `tsdb.TagValues` element: the tag values reported for one measurement. -/
structure TagValuesResult where
  values : List String
deriving DecidableEq, Repr

/-- `influxql.Measurement` as built by `measurementFields` for the synthetic
field-keys query. -/
structure Measurement where
  Database : String
  RetentionPolicy : String
  SystemIterator : String
deriving DecidableEq, Repr

/-- The `query.IteratorOptions` fields the source sets for the field-keys
query: organization, condition and authorizer. -/
structure IteratorOptions where
  OrgID : Nat
  Condition : Option Expr
  Authorizer : Authorizer
deriving DecidableEq, Repr

/-- A point yielded by the field-keys float iterator; only its Aux values
(field names) are read. -/
structure FloatPoint where
  Aux : List String
deriving DecidableEq, Repr

/-- A per-series data cursor as dispatched on in `cursorHasData`: one of the
five array-cursor kinds; each `Next` call yields a batch, modelled by the list
of successive batch lengths (only lengths are observed by this core). -/
inductive Cursor where
  | integerArray (batchLens : List Nat)
  | floatArray (batchLens : List Nat)
  | unsignedArray (batchLens : List Nat)
  | booleanArray (batchLens : List Nat)
  | stringArray (batchLens : List Nat)
deriving DecidableEq, Repr

/-- `cursorHasData`: call `Next` once on the typed cursor and report whether
the yielded batch is non-empty (store.go lines 496-518). -/
def cursorHasData (c : Cursor) : Bool :=
  match c with
  | .integerArray bs => bs.headD 0 != 0
  | .floatArray bs => bs.headD 0 != 0
  | .unsignedArray bs => bs.headD 0 != 0
  | .booleanArray bs => bs.headD 0 != 0
  | .stringArray bs => bs.headD 0 != 0

/-- One series yielded by a series cursor / filtered result set: its tag set
and its (possibly nil) per-series data cursor. -/
structure SeriesRow where
  tags : List (String × String)
  cursor : Option Cursor
deriving DecidableEq, Repr

/-- `models.Tags.Get`: the value for a tag key, empty when the key is absent. -/
def tagsGet (tags : List (String × String)) (key : String) : String :=
  match tags.find? (fun kv => kv.1 == key) with
  | some kv => kv.2
  | none => ""

/-- Modelled from the spec: `reads.NewFilteredResultSet` (storage/reads
package, not under src) wraps a series cursor into a result set bounded by the
clamped range; iterating it yields each series row in turn (spec §3, §4.5). -/
structure FilteredResultSet where
  start : Int
  end_ : Int
  rows : List SeriesRow
deriving DecidableEq, Repr

def NewFilteredResultSet (start end_ : Int) (cur : List SeriesRow) : FilteredResultSet :=
  ⟨start, end_, cur⟩

/-- Modelled from the spec: grouped result sets are built by the reads
collaborator (out of scope, spec §1); modelled opaquely. -/
structure GroupResultSet where
  gid : Nat
deriving DecidableEq, Repr

/-- The string iterator returned by all enumeration entry points
(`cursors.StringIterator` backed by `cursors.NewStringSliceIterator`). -/
structure StringIterator where
  strings : List String
deriving DecidableEq, Repr

/-- `cursors.EmptyStringIterator`. -/
def EmptyStringIterator : StringIterator := ⟨[]⟩

/-- `cursors.NewStringSliceIterator`. -/
def NewStringSliceIterator (l : List String) : StringIterator := ⟨l⟩

/-- The wire read source (`ReadSource` proto): organization and bucket IDs. -/
structure ReadSource where
  OrganizationID : Nat
  BucketID : Nat
deriving DecidableEq, Repr

/-- The opaque `types.Any` envelope carrying a read source: unmarshalling
either fails or yields the source. -/
def AnyEnvelope := Except String ReadSource

/-- `getReadSource`: unmarshal the envelope (store.go lines 44-50). -/
def getReadSource (a : AnyEnvelope) : Except String ReadSource := a

/-- The request time range. -/
structure ReadRange where
  start : Int
  end_ : Int
deriving DecidableEq, Repr

/-- `datatypes.ReadFilterRequest`. -/
structure ReadFilterRequest where
  ReadSource : Option AnyEnvelope
  Range : ReadRange
  Predicate : Option Node

/-- `datatypes.ReadGroupRequest` (group spec fields beyond the predicate are
not consumed by the modelled code paths). -/
structure ReadGroupRequest where
  ReadSource : Option AnyEnvelope
  Range : ReadRange
  Predicate : Option Node

/-- `datatypes.TagKeysRequest`. -/
structure TagKeysRequest where
  TagsSource : Option AnyEnvelope
  Range : ReadRange
  Predicate : Option Node

/-- `datatypes.TagValuesRequest`. -/
structure TagValuesRequest where
  TagsSource : Option AnyEnvelope
  Range : ReadRange
  Predicate : Option Node
  TagKey : String

/-- `metaqueryAttributes` (store.go lines 201-206). -/
structure MetaqueryAttributes where
  orgID : Nat
  db : String
  rp : String
  start : Int
  end_ : Int
  pred : Option Expr

/-- The `TSDBStore` collaborator interface (store.go lines 29-35; shard
handles are modelled by their IDs, and `ShardGroup(ids).CreateIterator` is the
`CreateIterator` field). -/
structure TSDBStoreI where
  MeasurementNames : Authorizer → String → Option Expr → Except String (List String)
  TagKeys : Authorizer → List Nat → Option Expr → Except String (List TagKeysResult)
  TagValues : Authorizer → List Nat → Option Expr → Except String (List TagValuesResult)
  Shards : List Nat → List Nat
  CreateIterator : List Nat → Measurement → IteratorOptions → Except String (List FloatPoint)

/-- The `Store` service, bundling its collaborators.  The two index series
cursor constructors and the group result-set constructor are repository code
not under src (spec §1 lists cursor construction among the out-of-scope
collaborators), so they are modelled as environment functions: each may fail,
return a nil cursor (`none`), or return the series rows the cursor yields. -/
structure Store where
  TSDBStore : TSDBStoreI
  MetaClient : MetaClientI
  newIndexSeriesCursor : Option Node → List Nat → Except String (Option (List SeriesRow))
  newIndexSeriesCursorInfluxQLPred : Option Expr → List Nat → Except String (Option (List SeriesRow))
  NewGroupResultSet : ReadGroupRequest → List Nat → Option GroupResultSet

/-- `findShardIDs` (store.go lines 71-94): fetch the shard groups overlapping
the range; a nil slice (`none`) when there are none; otherwise sort the groups
(modelled from the spec: `meta.ShardGroupInfos` orders by group start time,
spec §4.2) and flatten the shard IDs. -/
def Store.findShardIDs (s : Store) (database rp : String) (desc : Bool) (start end_ : Int) :
    Except String (Option (List Nat)) :=
  match s.MetaClient.ShardGroupsByTimeRange database rp start end_ with
  | .error e => .error e
  | .ok groups =>
    if groups.length = 0 then
      .ok none
    else
      let sorted :=
        if desc then
          List.insertionSort (fun a b => b.StartTime ≤ a.StartTime) groups
        else
          List.insertionSort (fun a b => a.StartTime ≤ b.StartTime) groups
      .ok (some (sorted.flatMap (fun g => g.Shards.map (fun si => si.ID))))

/-- `validateArgs` (store.go lines 96-117): derive the database name from the
bucket ID, require the database and its default retention policy to exist, and
clamp non-positive bounds to the engine's min/max nanosecond timestamps. -/
def Store.validateArgs (s : Store) (orgID bucketID : Nat) (start end_ : Int) :
    Except String (String × String × Int × Int) :=
  let database := idString bucketID
  let rp := DefaultRetentionPolicyName
  match s.MetaClient.Database database with
  | none => .error "no database"
  | some di =>
    match di.RetentionPolicy rp with
    | none => .error "invalid retention policy"
    | some _ =>
      let start := if start ≤ 0 then MinNanoTime else start
      let end_ := if end_ ≤ 0 then MaxNanoTime else end_
      .ok (database, rp, start, end_)

/-- The order used by Go's `sort.Strings`, modelled lexicographically over the
string's character sequence. -/
def strLe (a b : String) : Prop := a.data ≤ b.data

/-- Strict lexicographic order over the string's character sequence. -/
def strLt (a b : String) : Prop := a.data < b.data

instance strLeDecidable : DecidableRel strLe :=
  fun a b => inferInstanceAs (Decidable (a.data ≤ b.data))

instance strLtDecidable : DecidableRel strLt :=
  fun a b => inferInstanceAs (Decidable (a.data < b.data))

instance strLeTotal : IsTotal String strLe := ⟨fun a b => le_total a.data b.data⟩

instance strLeTrans : IsTrans String strLe := ⟨fun _ _ _ hab hbc => le_trans hab hbc⟩

theorem stringDataInj {a b : String} (h : a.data = b.data) : a = b := by
  cases a; cases b; cases h; rfl

theorem strLt_of_strLe_ne {a b : String} (h1 : strLe a b) (h2 : a ≠ b) : strLt a b :=
  lt_of_le_of_ne h1 (fun hd => h2 (stringDataInj hd))

theorem strLt_trans {a b c : String} (h1 : strLt a b) (h2 : strLt b c) : strLt a c :=
  lt_trans h1 h2

/-- The Go pattern "collect into a `map[string]...` then `sort.Strings` the
keys": the distinct elements, sorted ascending. -/
def sortDedup (l : List String) : List String :=
  List.insertionSort strLe l.dedup

/-- Drop elements equal to the previous kept element (helper for
`MergeSortedStrings`). -/
def dropEqAdj (prev : String) : List String → List String
  | [] => []
  | a :: rest => if a == prev then dropEqAdj prev rest else a :: dropEqAdj a rest

/-- Modelled from the spec: `slices.MergeSortedStrings` (pkg/slices, not under
src) merges sorted string slices dropping duplicates; applied to the single
sorted slice the source passes it, it removes adjacent duplicates (spec §4.6:
"a de-duplicating merge pass"). -/
def MergeSortedStrings : List String → List String
  | [] => []
  | a :: rest => a :: dropEqAdj a rest

/-- The translated-predicate block shared by `TagKeys` (store.go lines
231-248) and the index path of `TagValues` (lines 347-364): convert the wire
tree, reject field-value references, structurally remove field references,
reduce, and normalise a literal-true result to absent. -/
def translateIndexExpr (root : Option Node) : Except String (Option Expr) :=
  match root with
  | none => .ok none
  | some root =>
    match NodeToExpr root measurementRemap with
    | .error e => .error e
    | .ok expr =>
      if HasFieldValueKey expr then
        .error "field values unsupported"
      else
        let expr := reduce (RewriteExprRemoveFieldKeyAndValue (cloneExpr expr))
        if IsTrueBooleanLiteral expr then .ok none else .ok (some expr)

/-- The translated-predicate block of `TagValues` that feeds
`metaqueryAttributes` (store.go lines 298-314): same as `translateIndexExpr`
but without field-reference removal. -/
def tagValuesPredicate (root : Option Node) : Except String (Option Expr) :=
  match root with
  | none => .ok none
  | some root =>
    match NodeToExpr root measurementRemap with
    | .error e => .error e
    | .ok expr =>
      if HasFieldValueKey expr then
        .error "field values unsupported"
      else
        let expr := reduce (cloneExpr expr)
        if IsTrueBooleanLiteral expr then .ok none else .ok (some expr)

/-- The `"_tagKey" = <requested key>` equality clause built by `TagValues`
(store.go lines 366-374). -/
def tagKeyClause (reqTagKey : String) : Expr :=
  .binary .eq (.varRef "_tagKey") (.stringLit reqTagKey)

/-- Conjoin the tag-key clause with the remaining translated predicate
(store.go lines 375-385): the predicate is parenthesized on the right of an
AND, or the clause stands alone when the predicate is absent. -/
def conjoinTagKeyClause (reqTagKey : String) (expr : Option Expr) : Expr :=
  match expr with
  | some e => .binary .and (tagKeyClause reqTagKey) (.paren e)
  | none => tagKeyClause reqTagKey

/-- The tail of `TagKeys` (store.go lines 250-272): query the per-shard index,
union with the two synthetic keys, deduplicate and sort. -/
def tagKeysFromIndex (s : Store) (shardIDs : List Nat) (expr : Option Expr) :
    Except String (Option StringIterator) :=
  match s.TSDBStore.TagKeys openAuth shardIDs expr with
  | .error e => .error e
  | .ok keys =>
    .ok (some (NewStringSliceIterator
      (sortDedup (measurementKey :: fieldKey :: keys.flatMap (fun ks => ks.keys)))))

/-- The tail of the index path of `TagValues` (store.go lines 387-407):
query the per-shard index for values, deduplicate and sort. -/
def tagValuesFromIndex (s : Store) (shardIDs : List Nat) (expr : Option Expr) :
    Except String (Option StringIterator) :=
  match s.TSDBStore.TagValues openAuth shardIDs expr with
  | .error e => .error e
  | .ok values =>
    .ok (some (NewStringSliceIterator
      (sortDedup (values.flatMap (fun kvs => kvs.values)))))

/-- The body of the scan loop of `tagValuesSlow` (store.go lines 537-554):
for each series row, skip it when its data cursor is nil or yields no points,
otherwise record the target tag's value. -/
def slowCollect (rows : List SeriesRow) (tagKey : String) : List String :=
  rows.filterMap (fun row =>
    match row.cursor with
    | none => none
    | some c => if cursorHasData c then some (tagsGet row.tags tagKey) else none)

/-- `tagValuesSlow` (store.go lines 520-562): the scan fallback path. -/
def Store.tagValuesSlow (s : Store) (mqAttrs : MetaqueryAttributes) (tagKey : String) :
    Except String (Option StringIterator) :=
  match s.findShardIDs mqAttrs.db mqAttrs.rp false mqAttrs.start mqAttrs.end_ with
  | .error e => .error e
  | .ok shardIDs =>
    if (shardIDs.getD []).length = 0 then
      .ok (some EmptyStringIterator)
    else
      match s.newIndexSeriesCursorInfluxQLPred mqAttrs.pred
          (s.TSDBStore.Shards (shardIDs.getD [])) with
      | .error e => .error e
      | .ok none => .ok none
      | .ok (some cur) =>
        let rs := NewFilteredResultSet mqAttrs.start mqAttrs.end_ cur
        .ok (some (NewStringSliceIterator (sortDedup (slowCollect rs.rows tagKey))))

/-- `MeasurementNames` (store.go lines 409-437): slow path when the predicate
references the field key, otherwise the engine's measurement-name listing. -/
def Store.MeasurementNames (s : Store) (mqAttrs : MetaqueryAttributes) :
    Except String (Option StringIterator) :=
  if mqAttrs.pred.any (fun p => (HasFieldKeyOrValue p).1) then
    s.tagValuesSlow mqAttrs measurementKey
  else
    match s.TSDBStore.MeasurementNames openAuth mqAttrs.db mqAttrs.pred with
    | .error e => .error e
    | .ok values => .ok (some (NewStringSliceIterator (sortDedup values)))

/-- The Aux-draining loop of `measurementFields` (store.go lines 482-488):
collect the first Aux value of every point that has one. -/
def auxFieldNames (points : List FloatPoint) : List String :=
  points.filterMap (fun p =>
    match p.Aux with
    | a :: _ => some a
    | [] => none)

/-- `measurementFields` (store.go lines 446-494): slow path when the predicate
references the field key or any tag key; otherwise drive the shard group's
iterator facility with the synthetic `_fieldKeys` query, drain it, sort and
merge-deduplicate. -/
def Store.measurementFields (s : Store) (mqAttrs : MetaqueryAttributes) :
    Except String (Option StringIterator) :=
  if mqAttrs.pred.any (fun p => (HasFieldKeyOrValue p).1) then
    s.tagValuesSlow mqAttrs fieldKey
  else if mqAttrs.pred.any hasTagKey then
    s.tagValuesSlow mqAttrs fieldKey
  else
    match s.findShardIDs mqAttrs.db mqAttrs.rp false mqAttrs.start mqAttrs.end_ with
    | .error e => .error e
    | .ok shardIDs =>
      if (shardIDs.getD []).length = 0 then
        .ok (some EmptyStringIterator)
      else
        let ms : Measurement := ⟨mqAttrs.db, mqAttrs.rp, "_fieldKeys"⟩
        let opts : IteratorOptions := ⟨mqAttrs.orgID, mqAttrs.pred, openAuth⟩
        match s.TSDBStore.CreateIterator (shardIDs.getD []) ms opts with
        | .error e => .error e
        | .ok points =>
          let fieldNames := auxFieldNames points
          let fieldNames := List.insertionSort strLe fieldNames
          let fieldNames := MergeSortedStrings fieldNames
          .ok (some (NewStringSliceIterator fieldNames))

/-- `ReadFilter` (store.go lines 119-155).  The request is threaded through
explicitly because the source mutates `req.Range` on the success path; the
returned pair is (result, final request state). -/
def Store.ReadFilter (s : Store) (req : ReadFilterRequest) :
    Except String (Option FilteredResultSet) × ReadFilterRequest :=
  match req.ReadSource with
  | none => (.error "missing read source", req)
  | some srcAny =>
    match getReadSource srcAny with
    | .error e => (.error e, req)
    | .ok source =>
      match s.validateArgs source.OrganizationID source.BucketID req.Range.start req.Range.end_ with
      | .error e => (.error e, req)
      | .ok (database, rp, start, end_) =>
        match s.findShardIDs database rp false start end_ with
        | .error e => (.error e, req)
        | .ok shardIDs =>
          if (shardIDs.getD []).length = 0 then
            (.ok none, req)
          else
            match s.newIndexSeriesCursor req.Predicate
                (s.TSDBStore.Shards (shardIDs.getD [])) with
            | .error e => (.error e, req)
            | .ok none => (.ok none, req)
            | .ok (some cur) =>
              let req := { req with Range := ⟨start, end_⟩ }
              (.ok (some (NewFilteredResultSet req.Range.start req.Range.end_ cur)), req)

/-- `ReadGroup` (store.go lines 157-199); `req.Range` is rewritten before the
group result set is constructed. -/
def Store.ReadGroup (s : Store) (req : ReadGroupRequest) :
    Except String (Option GroupResultSet) × ReadGroupRequest :=
  match req.ReadSource with
  | none => (.error "missing read source", req)
  | some srcAny =>
    match getReadSource srcAny with
    | .error e => (.error e, req)
    | .ok source =>
      match s.validateArgs source.OrganizationID source.BucketID req.Range.start req.Range.end_ with
      | .error e => (.error e, req)
      | .ok (database, rp, start, end_) =>
        match s.findShardIDs database rp false start end_ with
        | .error e => (.error e, req)
        | .ok shardIDs =>
          if (shardIDs.getD []).length = 0 then
            (.ok none, req)
          else
            let shards := s.TSDBStore.Shards (shardIDs.getD [])
            let req := { req with Range := ⟨start, end_⟩ }
            match s.NewGroupResultSet req shards with
            | none => (.ok none, req)
            | some rs => (.ok (some rs), req)

/-- `TagKeys` (store.go lines 208-273). -/
def Store.TagKeys (s : Store) (req : TagKeysRequest) : Except String (Option StringIterator) :=
  match req.TagsSource with
  | none => .error "missing read source"
  | some srcAny =>
    match getReadSource srcAny with
    | .error e => .error e
    | .ok source =>
      match s.validateArgs source.OrganizationID source.BucketID req.Range.start req.Range.end_ with
      | .error e => .error e
      | .ok (database, rp, start, end_) =>
        match s.findShardIDs database rp false start end_ with
        | .error e => .error e
        | .ok shardIDs =>
          if (shardIDs.getD []).length = 0 then
            .ok (some EmptyStringIterator)
          else
            match translateIndexExpr req.Predicate with
            | .error e => .error e
            | .ok expr => tagKeysFromIndex s (shardIDs.getD []) expr

/-- `TagValues` (store.go lines 275-407). -/
def Store.TagValues (s : Store) (req : TagValuesRequest) : Except String (Option StringIterator) :=
  match req.TagsSource with
  | none => .error "missing read source"
  | some srcAny =>
    match getReadSource srcAny with
    | .error e => .error e
    | .ok source =>
      match s.validateArgs source.OrganizationID source.BucketID req.Range.start req.Range.end_ with
      | .error e => .error e
      | .ok (db, rp, start, end_) =>
        match tagValuesPredicate req.Predicate with
        | .error e => .error e
        | .ok influxqlPred =>
          let mqAttrs : MetaqueryAttributes :=
            ⟨source.OrganizationID, db, rp, start, end_, influxqlPred⟩
          let tagKey := (measurementRemap req.TagKey).getD req.TagKey
          if tagKey = "_name" then
            s.MeasurementNames mqAttrs
          else if tagKey = "_field" then
            s.measurementFields mqAttrs
          else
            match s.findShardIDs db rp false start end_ with
            | .error e => .error e
            | .ok shardIDs =>
              if (shardIDs.getD []).length = 0 then
                .ok (some EmptyStringIterator)
              else
                match translateIndexExpr req.Predicate with
                | .error e => .error e
                | .ok expr =>
                  tagValuesFromIndex s (shardIDs.getD [])
                    (some (conjoinTagKeyClause req.TagKey expr))

/-!  Concrete collaborator environments used by witnesses and counterexamples. -/

/-- The database name of bucket `1`. -/
def dbName1 : String := idString 1

/-- A metadata service knowing bucket 1's database with the default retention
policy, and owning no shard groups at all. -/
def metaEmptyGroups : MetaClientI where
  Database := fun name => if name = dbName1 then some ⟨[DefaultRetentionPolicyName]⟩ else none
  ShardGroupsByTimeRange := fun _ _ _ _ => .ok []

/-- A metadata service like `metaEmptyGroups` but owning one shard group
(span [0, 86400)) with the single shard 7. -/
def metaOneGroup : MetaClientI where
  Database := fun name => if name = dbName1 then some ⟨[DefaultRetentionPolicyName]⟩ else none
  ShardGroupsByTimeRange := fun _ _ _ _ => .ok [⟨0, 86400, [⟨7⟩]⟩]

/-- A storage engine that fails loudly on any contact: used to demonstrate
that zero-shard requests never reach the engine. -/
def tsdbUnreachable : TSDBStoreI where
  MeasurementNames := fun _ _ _ => .error "engine contacted"
  TagKeys := fun _ _ _ => .error "engine contacted"
  TagValues := fun _ _ _ => .error "engine contacted"
  Shards := fun ids => ids
  CreateIterator := fun _ _ _ => .error "engine contacted"

/-- A store whose metadata service has no shard groups and whose engine and
cursor constructors all fail on contact. -/
def storeEmptyGroups : Store where
  TSDBStore := tsdbUnreachable
  MetaClient := metaEmptyGroups
  newIndexSeriesCursor := fun _ _ => .error "engine contacted"
  newIndexSeriesCursorInfluxQLPred := fun _ _ => .error "engine contacted"
  NewGroupResultSet := fun _ _ => none

/-- An engine answering index queries with fixed benign results. -/
def tsdbBenign : TSDBStoreI where
  MeasurementNames := fun _ _ _ => .ok ["cpu"]
  TagKeys := fun _ _ _ => .ok []
  TagValues := fun _ _ _ => .ok [⟨["b", "a", "b"]⟩]
  Shards := fun ids => ids
  CreateIterator := fun _ _ _ => .ok [⟨["load"]⟩, ⟨[]⟩, ⟨["idle"]⟩, ⟨["load"]⟩]

/-- Three series rows exercising the scan fallback: one with data, one whose
cursor yields zero points, one with no cursor at all. -/
def slowRows : List SeriesRow :=
  [⟨[("host", "h1"), ("_field", "slowfield")], some (.floatArray [3])⟩,
   ⟨[("host", "h2"), ("_field", "emptyfield")], some (.integerArray [0])⟩,
   ⟨[("host", "h3"), ("_field", "nocursor")], none⟩]

/-- A store with one shard group and a benign engine; the slow-path cursor
constructor yields `slowRows`. -/
def storeOneGroup : Store where
  TSDBStore := tsdbBenign
  MetaClient := metaOneGroup
  newIndexSeriesCursor := fun _ _ => .ok (some slowRows)
  newIndexSeriesCursorInfluxQLPred := fun _ _ => .ok (some slowRows)
  NewGroupResultSet := fun _ _ => some ⟨0⟩

/-- The decoded source for bucket 1 under organization 9. -/
def source1 : ReadSource := ⟨9, 1⟩

/-!  Helper lemmas about the sort/deduplicate post-processing. -/

theorem sortDedup_perm (l : List String) : (sortDedup l).Perm l.dedup :=
  List.perm_insertionSort _ _

theorem mem_sortDedup {v : String} {l : List String} : v ∈ sortDedup l ↔ v ∈ l := by
  rw [(sortDedup_perm l).mem_iff, List.mem_dedup]

theorem sortDedup_nodup (l : List String) : (sortDedup l).Nodup :=
  ((sortDedup_perm l).nodup_iff).2 l.nodup_dedup

theorem sortDedup_sorted_le (l : List String) : (sortDedup l).Sorted strLe :=
  List.sorted_insertionSort _ _

theorem sortDedup_sorted_lt (l : List String) : (sortDedup l).Sorted strLt := by
  have h := List.Pairwise.and (sortDedup_sorted_le l) (sortDedup_nodup l)
  exact h.imp (fun hab => strLt_of_strLe_ne hab.1 hab.2)

theorem dropEqAdj_spec :
    ∀ (l : List String) (prev : String), l.Sorted strLe →
      (∀ x ∈ l, strLe prev x) →
      (dropEqAdj prev l).Sorted strLt ∧ ∀ x ∈ dropEqAdj prev l, strLt prev x := by
  intro l
  induction l with
  | nil => intro prev _ _; exact ⟨List.sorted_nil, by simp [dropEqAdj]⟩
  | cons a rest ih =>
    intro prev hs hge
    rw [List.sorted_cons] at hs
    obtain ⟨ha, hrest⟩ := hs
    by_cases hcase : a = prev
    · have heq : (a == prev) = true := by simp [hcase]
      rw [dropEqAdj, if_pos heq]
      exact ih prev hrest (fun x hx => hcase ▸ ha x hx)
    · have hne : (a == prev) = false := by simp [hcase]
      rw [dropEqAdj, if_neg (by simp [hne])]
      obtain ⟨hsorted, hbound⟩ := ih a hrest ha
      have hpa : strLt prev a :=
        strLt_of_strLe_ne (hge a (List.mem_cons_self a rest)) (Ne.symm hcase)
      constructor
      · rw [List.sorted_cons]
        exact ⟨fun b hb => hbound b hb, hsorted⟩
      · intro x hx
        rcases List.mem_cons.1 hx with hxa | hxd
        · exact hxa ▸ hpa
        · exact strLt_trans hpa (hbound x hxd)

theorem mergeSortedStrings_sorted_lt (l : List String) (h : l.Sorted strLe) :
    (MergeSortedStrings l).Sorted strLt := by
  match l with
  | [] => simp [MergeSortedStrings]
  | a :: rest =>
    rw [List.sorted_cons] at h
    obtain ⟨hsp, hbd⟩ := dropEqAdj_spec rest a h.2 h.1
    rw [MergeSortedStrings, List.sorted_cons]
    exact ⟨hbd, hsp⟩

/-!  Claim theorems. -/

/-- C3: `validateArgs` clamps the time range so that a non-positive start
becomes the engine's minimum nanosecond timestamp and a non-positive end
becomes its maximum; for positive bounds clamping is a no-op, and start/end
are determined componentwise, so no reordering happens even when start > end
after clamping. -/
theorem C3_validateArgs_clamps (s : Store) (orgID bucketID : Nat) (start end_ : Int)
    (db rp : String) (cs ce : Int)
    (h : s.validateArgs orgID bucketID start end_ = .ok (db, rp, cs, ce)) :
    cs = (if start ≤ 0 then MinNanoTime else start) ∧
    ce = (if end_ ≤ 0 then MaxNanoTime else end_) := by
  simp only [Store.validateArgs] at h
  repeat' split at h
  all_goals
    first
      | exact Except.noConfusion h
      | (cases h; constructor <;> simp [*])

/-- Witness for C3 at bucket 1 with range (-5, 0]: start clamps to the engine
minimum, end clamps to the engine maximum. -/
theorem C3_witness :
    MinNanoTime = (if (-5 : Int) ≤ 0 then MinNanoTime else (-5 : Int)) ∧
    MaxNanoTime = (if (0 : Int) ≤ 0 then MaxNanoTime else (0 : Int)) :=
  C3_validateArgs_clamps storeEmptyGroups 9 1 (-5) 0 dbName1 DefaultRetentionPolicyName
    MinNanoTime MaxNanoTime rfl

/-- C9: identity resolution is independent of the organization ID —
`validateArgs` derives the database name from the bucket ID alone and never
reads its orgID argument, so two calls differing only in organization ID give
identical results. -/
theorem C9_validateArgs_orgID_independent (s : Store) (orgID orgID' bucketID : Nat)
    (start end_ : Int) :
    s.validateArgs orgID bucketID start end_ = s.validateArgs orgID' bucketID start end_ := rfl

/-- C1 counterexample: with zero overlapping shard groups, `findShardIDs`
returns the nil (absent) slice — modelled `none`, and distinct from the empty
non-absent list `some []` — and `ReadFilter` with zero shards returns an
absent (`none`) result set, not an explicitly empty one, at this concrete
input.  This refutes the claim that the list is "empty, non-absent" and that
every entry point returns a "never absent/nil" value. -/
theorem C1_counterexample :
    storeEmptyGroups.findShardIDs dbName1 DefaultRetentionPolicyName false 5 10 = .ok none ∧
    ((Except.ok (none : Option (List Nat)) : Except String (Option (List Nat))) ≠
      Except.ok (some ([] : List Nat))) ∧
    (storeEmptyGroups.ReadFilter ⟨some (.ok source1), ⟨5, 10⟩, none⟩).1 =
      .ok (none : Option FilteredResultSet) :=
  ⟨rfl, by simp, rfl⟩

/-- C1 (amended): with zero overlapping shard groups in the clamped range,
`findShardIDs` returns a nil (absent) slice, whose length is zero; every entry
point short-circuits without contacting the storage engine — the conclusions
hold for every TSDB-store and cursor-constructor behaviour bundled in `s` —
with TagKeys, TagValues (for non-special tag keys) and the slow path returning
an explicitly empty string iterator, while ReadFilter and ReadGroup return an
absent (nil) result set. -/
theorem C1_amended_zero_overlap (s : Store) (source : ReadSource) (range : ReadRange)
    (db rp : String) (cs ce : Int)
    (hval : s.validateArgs source.OrganizationID source.BucketID range.start range.end_ =
      .ok (db, rp, cs, ce))
    (hgroups : s.MetaClient.ShardGroupsByTimeRange db rp cs ce = .ok []) :
    (∀ desc, s.findShardIDs db rp desc cs ce = .ok none) ∧
    (∀ pred, s.ReadFilter ⟨some (.ok source), range, pred⟩ =
      (.ok none, ⟨some (.ok source), range, pred⟩)) ∧
    (∀ pred, s.ReadGroup ⟨some (.ok source), range, pred⟩ =
      (.ok none, ⟨some (.ok source), range, pred⟩)) ∧
    (∀ pred, s.TagKeys ⟨some (.ok source), range, pred⟩ = .ok (some EmptyStringIterator)) ∧
    (∀ pred pr tk, tagValuesPredicate pred = .ok pr →
      (measurementRemap tk).getD tk ≠ "_name" →
      (measurementRemap tk).getD tk ≠ "_field" →
      s.TagValues ⟨some (.ok source), range, pred, tk⟩ = .ok (some EmptyStringIterator)) ∧
    (∀ orgID pr k, s.tagValuesSlow ⟨orgID, db, rp, cs, ce, pr⟩ k =
      .ok (some EmptyStringIterator)) := by
  have hfind : ∀ desc, s.findShardIDs db rp desc cs ce = .ok none := by
    intro desc
    simp [Store.findShardIDs, hgroups]
  refine ⟨hfind, ?_, ?_, ?_, ?_, ?_⟩
  · intro pred
    simp [Store.ReadFilter, getReadSource, hval, hfind false]
  · intro pred
    simp [Store.ReadGroup, getReadSource, hval, hfind false]
  · intro pred
    simp [Store.TagKeys, getReadSource, hval, hfind false, EmptyStringIterator]
  · intro pred pr tk hpred hname hfield
    simp [Store.TagValues, getReadSource, hval, hpred, hname, hfield, hfind false,
      EmptyStringIterator]
  · intro orgID pr k
    simp [Store.tagValuesSlow, hfind false, EmptyStringIterator]

/-- Witness for the amended C1 at the concrete no-groups store: TagKeys with
zero shards yields the explicitly empty iterator. -/
theorem C1_amended_witness :
    storeEmptyGroups.TagKeys ⟨some (.ok source1), ⟨5, 10⟩, none⟩ =
      .ok (some EmptyStringIterator) :=
  (C1_amended_zero_overlap storeEmptyGroups source1 ⟨5, 10⟩ dbName1
    DefaultRetentionPolicyName 5 10 rfl rfl).2.2.2.1 none

/-- A wire predicate comparing the field value against a literal
(`_value > 10`). -/
def nodeFieldValue : Node := .comparison .gt .fieldRefValue (.intLit 10)

/-- C2 counterexample: this wire predicate references a field value (its
translation contains the reserved field-value variable), yet `TagKeys` on a
store with zero overlapping shard groups returns an empty iterator with no
error — the short-circuit on the empty shard set happens before the predicate
is examined, so the operation does not fail with the unsupported-predicate
error for every such request. -/
theorem C2_counterexample :
    NodeToExpr nodeFieldValue measurementRemap =
      .ok (.binary .gt (.varRef fieldValueKey) (.intLit 10)) ∧
    HasFieldValueKey (.binary .gt (.varRef fieldValueKey) (.intLit 10)) = true ∧
    storeEmptyGroups.TagKeys ⟨some (.ok source1), ⟨5, 10⟩, some nodeFieldValue⟩ =
      .ok (some EmptyStringIterator) :=
  ⟨rfl, rfl, rfl⟩

/-- C2 (amended): when the translated wire predicate references a field value,
`TagValues` fails with the unsupported-predicate error before any shard, index
or cursor work, for every request that passes source decoding and validation;
`TagKeys` fails likewise provided shard resolution yields a non-empty shard
set — with zero shards TagKeys instead short-circuits to an empty iterator
without examining the predicate.  In either failing case the predicate is
never downgraded to "no predicate". -/
theorem C2_amended_field_value_rejected (s : Store) (source : ReadSource) (range : ReadRange)
    (db rp : String) (cs ce : Int) (root : Node) (ex : Expr)
    (hval : s.validateArgs source.OrganizationID source.BucketID range.start range.end_ =
      .ok (db, rp, cs, ce))
    (hnode : NodeToExpr root measurementRemap = .ok ex)
    (hfv : HasFieldValueKey ex = true) :
    (∀ tk, s.TagValues ⟨some (.ok source), range, some root, tk⟩ =
      .error "field values unsupported") ∧
    (∀ ids, s.findShardIDs db rp false cs ce = .ok ids → (ids.getD []).length ≠ 0 →
      s.TagKeys ⟨some (.ok source), range, some root⟩ =
        .error "field values unsupported") := by
  constructor
  · intro tk
    simp [Store.TagValues, getReadSource, hval, tagValuesPredicate, hnode, hfv]
  · intro ids hfind hlen
    simp [Store.TagKeys, getReadSource, hval, hfind, hlen, translateIndexExpr, hnode, hfv]

/-- Witness for the amended C2: at a store with one shard group, both
TagValues and TagKeys reject the field-value predicate. -/
theorem C2_amended_witness :
    storeOneGroup.TagValues ⟨some (.ok source1), ⟨5, 10⟩, some nodeFieldValue, "host"⟩ =
      .error "field values unsupported" ∧
    storeOneGroup.TagKeys ⟨some (.ok source1), ⟨5, 10⟩, some nodeFieldValue⟩ =
      .error "field values unsupported" := by
  have h := C2_amended_field_value_rejected storeOneGroup source1 ⟨5, 10⟩ dbName1
    DefaultRetentionPolicyName 5 10 nodeFieldValue
    (.binary .gt (.varRef fieldValueKey) (.intLit 10)) rfl rfl rfl
  exact ⟨h.1 "host", h.2 (some [7]) rfl (by decide)⟩

/-- C4: for every wire predicate that reduces to the literal boolean true
after field-reference removal and algebraic reduction, the translated
predicate is normalised to absent: `translateIndexExpr` yields `none`, TagKeys
passes `none` to the index, and TagValues passes only the structural
`_tagKey` equality clause with an absent translated component. -/
theorem C4_true_literal_normalised_to_absent (root : Node) (ex : Expr)
    (hnode : NodeToExpr root measurementRemap = .ok ex)
    (hfv : HasFieldValueKey ex = false)
    (hred : reduce (RewriteExprRemoveFieldKeyAndValue (cloneExpr ex)) = .boolLit true) :
    translateIndexExpr (some root) = .ok none ∧
    (∀ (s : Store) (source : ReadSource) (range : ReadRange) (db rp : String) (cs ce : Int)
        (ids : Option (List Nat)),
      s.validateArgs source.OrganizationID source.BucketID range.start range.end_ =
        .ok (db, rp, cs, ce) →
      s.findShardIDs db rp false cs ce = .ok ids →
      (ids.getD []).length ≠ 0 →
      s.TagKeys ⟨some (.ok source), range, some root⟩ =
        tagKeysFromIndex s (ids.getD []) none) ∧
    (∀ (s : Store) (source : ReadSource) (range : ReadRange) (db rp : String) (cs ce : Int)
        (ids : Option (List Nat)) (pr : Option Expr) (tk : String),
      s.validateArgs source.OrganizationID source.BucketID range.start range.end_ =
        .ok (db, rp, cs, ce) →
      tagValuesPredicate (some root) = .ok pr →
      (measurementRemap tk).getD tk ≠ "_name" →
      (measurementRemap tk).getD tk ≠ "_field" →
      s.findShardIDs db rp false cs ce = .ok ids →
      (ids.getD []).length ≠ 0 →
      s.TagValues ⟨some (.ok source), range, some root, tk⟩ =
        tagValuesFromIndex s (ids.getD []) (some (tagKeyClause tk))) := by
  have htr : translateIndexExpr (some root) = .ok none := by
    simp [translateIndexExpr, hnode, hfv, cloneExpr] at *
    simp [hred, IsTrueBooleanLiteral]
  refine ⟨htr, ?_, ?_⟩
  · intro s source range db rp cs ce ids hval hfind hlen
    simp [Store.TagKeys, getReadSource, hval, hfind, hlen, htr]
  · intro s source range db rp cs ce ids pr tk hval hpred hname hfield hfind hlen
    simp [Store.TagValues, getReadSource, hval, hpred, hname, hfield, hfind, hlen, htr,
      conjoinTagKeyClause]

/-- A wire predicate on the field key alone (`_field = "x"`), whose
field-reference removal reduces it to literal true. -/
def nodeFieldEq : Node := .comparison .eq (.tagRef "_field") (.stringLit "x")

/-- Witness for C4: at the one-group store, the field-key-only predicate is
normalised to an absent index predicate for TagKeys. -/
theorem C4_witness :
    storeOneGroup.TagKeys ⟨some (.ok source1), ⟨5, 10⟩, some nodeFieldEq⟩ =
      tagKeysFromIndex storeOneGroup [7] none :=
  (C4_true_literal_normalised_to_absent nodeFieldEq
      (.binary .eq (.varRef "_field") (.stringLit "x")) rfl rfl rfl).2.1
    storeOneGroup source1 ⟨5, 10⟩ dbName1 DefaultRetentionPolicyName 5 10 (some [7])
    rfl rfl (by decide)

/-- C5: TagValues remaps the requested tag key through the reserved-name
table; `_name` redirects to measurement-name resolution and `_field` to
field-name resolution; for every other tag key the `_tagKey = <requested key>`
equality clause is conjoined — with the remaining translated predicate
parenthesized on the right of an AND, or the clause standing alone when the
predicate is absent — before the expression is pushed to the per-shard
index. -/
theorem C5_TagValues_dispatch (s : Store) (source : ReadSource) (range : ReadRange)
    (db rp : String) (cs ce : Int) (pred : Option Node) (pr : Option Expr) (tk : String)
    (hval : s.validateArgs source.OrganizationID source.BucketID range.start range.end_ =
      .ok (db, rp, cs, ce))
    (hpred : tagValuesPredicate pred = .ok pr) :
    ((measurementRemap tk).getD tk = "_name" →
      s.TagValues ⟨some (.ok source), range, pred, tk⟩ =
        s.MeasurementNames ⟨source.OrganizationID, db, rp, cs, ce, pr⟩) ∧
    ((measurementRemap tk).getD tk = "_field" →
      s.TagValues ⟨some (.ok source), range, pred, tk⟩ =
        s.measurementFields ⟨source.OrganizationID, db, rp, cs, ce, pr⟩) ∧
    (∀ (ids : Option (List Nat)) (e : Option Expr),
      (measurementRemap tk).getD tk ≠ "_name" →
      (measurementRemap tk).getD tk ≠ "_field" →
      s.findShardIDs db rp false cs ce = .ok ids →
      (ids.getD []).length ≠ 0 →
      translateIndexExpr pred = .ok e →
      s.TagValues ⟨some (.ok source), range, pred, tk⟩ =
        tagValuesFromIndex s (ids.getD []) (some (conjoinTagKeyClause tk e))) ∧
    (∀ ex : Expr, conjoinTagKeyClause tk (some ex) =
      .binary .and (tagKeyClause tk) (.paren ex)) ∧
    (conjoinTagKeyClause tk none = tagKeyClause tk) := by
  refine ⟨?_, ?_, ?_, fun ex => rfl, rfl⟩
  · intro hname
    simp [Store.TagValues, getReadSource, hval, hpred, hname]
  · intro hfield
    by_cases hname : (measurementRemap tk).getD tk = "_name"
    · rw [hname] at hfield; exact absurd hfield (by decide)
    · simp [Store.TagValues, getReadSource, hval, hpred, hname, hfield]
  · intro ids e hname hfield hfind hlen htr
    simp [Store.TagValues, getReadSource, hval, hpred, hname, hfield, hfind, hlen, htr]

/-- Witness for C5: the wire tag key `_measurement` remaps to `_name` and
redirects to measurement-name resolution. -/
theorem C5_witness :
    storeOneGroup.TagValues ⟨some (.ok source1), ⟨5, 10⟩, none, "_measurement"⟩ =
      storeOneGroup.MeasurementNames ⟨9, dbName1, DefaultRetentionPolicyName, 5, 10, none⟩ :=
  (C5_TagValues_dispatch storeOneGroup source1 ⟨5, 10⟩ dbName1 DefaultRetentionPolicyName
    5 10 none none "_measurement" rfl rfl).1 rfl

/-- C6: in the scan fallback path, for every series yielded by the cursor set
the target tag's value is included in the result iff the series' data cursor
exists and yields at least one point; series with a nil cursor or a cursor
yielding zero points contribute nothing; and the result is deduplicated and
sorted strictly ascending. -/
theorem C6_tagValuesSlow_scan (s : Store) (mq : MetaqueryAttributes) (k : String)
    (ids : Option (List Nat)) (rows : List SeriesRow)
    (hfind : s.findShardIDs mq.db mq.rp false mq.start mq.end_ = .ok ids)
    (hlen : (ids.getD []).length ≠ 0)
    (hcur : s.newIndexSeriesCursorInfluxQLPred mq.pred (s.TSDBStore.Shards (ids.getD [])) =
      .ok (some rows)) :
    s.tagValuesSlow mq k =
      .ok (some (NewStringSliceIterator (sortDedup (slowCollect rows k)))) ∧
    (sortDedup (slowCollect rows k)).Sorted strLt ∧
    (∀ v, v ∈ sortDedup (slowCollect rows k) ↔
      ∃ row, row ∈ rows ∧ (∃ c, row.cursor = some c ∧ cursorHasData c = true) ∧
        tagsGet row.tags k = v) := by
  refine ⟨?_, sortDedup_sorted_lt _, ?_⟩
  · simp [Store.tagValuesSlow, hfind, hlen, hcur, NewFilteredResultSet]
  · intro v
    rw [mem_sortDedup]
    unfold slowCollect
    rw [List.mem_filterMap]
    constructor
    · rintro ⟨row, hmem, hf⟩
      rcases hc : row.cursor with _ | c
      · rw [hc] at hf; exact absurd hf (by simp)
      · rw [hc] at hf
        by_cases hd : cursorHasData c
        · simp only [hd, if_true] at hf
          exact ⟨row, hmem, ⟨c, hc, hd⟩, Option.some.inj hf⟩
        · simp [hd] at hf
    · rintro ⟨row, hmem, ⟨c, hc, hd⟩, hv⟩
      refine ⟨row, hmem, ?_⟩
      rw [hc]
      simp [hd, hv]

/-- Witness for C6 against `slowRows`: only the series whose cursor yields a
point contributes; the zero-point series and the nil-cursor series are
excluded. -/
theorem C6_witness :
    storeOneGroup.tagValuesSlow ⟨9, dbName1, DefaultRetentionPolicyName, 5, 10, none⟩
      "_field" = .ok (some (NewStringSliceIterator ["slowfield"])) :=
  ((C6_tagValuesSlow_scan storeOneGroup
      ⟨9, dbName1, DefaultRetentionPolicyName, 5, 10, none⟩ "_field" (some [7]) slowRows
      rfl (by decide) rfl).1).trans rfl

/-- C7: every TagKeys request that reaches the index returns the union of the
index's tag keys with the two synthetic measurement/field keys, deduplicated
and sorted strictly ascending; both synthetic keys are present even when the
backing index returns zero keys. -/
theorem C7_TagKeys_synthetic_union (s : Store) (source : ReadSource) (range : ReadRange)
    (db rp : String) (cs ce : Int) (pred : Option Node) (e : Option Expr)
    (ids : Option (List Nat)) (krs : List TagKeysResult)
    (hval : s.validateArgs source.OrganizationID source.BucketID range.start range.end_ =
      .ok (db, rp, cs, ce))
    (hfind : s.findShardIDs db rp false cs ce = .ok ids)
    (hlen : (ids.getD []).length ≠ 0)
    (htr : translateIndexExpr pred = .ok e)
    (hidx : s.TSDBStore.TagKeys openAuth (ids.getD []) e = .ok krs) :
    s.TagKeys ⟨some (.ok source), range, pred⟩ =
      .ok (some (NewStringSliceIterator
        (sortDedup (measurementKey :: fieldKey :: krs.flatMap (fun ks => ks.keys))))) ∧
    measurementKey ∈ sortDedup (measurementKey :: fieldKey :: krs.flatMap (fun ks => ks.keys)) ∧
    fieldKey ∈ sortDedup (measurementKey :: fieldKey :: krs.flatMap (fun ks => ks.keys)) ∧
    (sortDedup (measurementKey :: fieldKey :: krs.flatMap (fun ks => ks.keys))).Sorted strLt ∧
    (∀ x, x ∈ sortDedup (measurementKey :: fieldKey :: krs.flatMap (fun ks => ks.keys)) ↔
      x = measurementKey ∨ x = fieldKey ∨ x ∈ krs.flatMap (fun ks => ks.keys)) := by
  refine ⟨?_, ?_, ?_, sortDedup_sorted_lt _, ?_⟩
  · simp [Store.TagKeys, getReadSource, hval, hfind, hlen, htr, tagKeysFromIndex, hidx]
  · rw [mem_sortDedup]; exact List.mem_cons_self _ _
  · rw [mem_sortDedup]; exact List.mem_cons_of_mem _ (List.mem_cons_self _ _)
  · intro x
    rw [mem_sortDedup, List.mem_cons, List.mem_cons]

/-- Witness for C7: an index returning zero keys still yields exactly the two
synthetic keys, sorted. -/
theorem C7_witness :
    storeOneGroup.TagKeys ⟨some (.ok source1), ⟨5, 10⟩, none⟩ =
      .ok (some (NewStringSliceIterator ["_field", "_measurement"])) :=
  ((C7_TagKeys_synthetic_union storeOneGroup source1 ⟨5, 10⟩ dbName1
      DefaultRetentionPolicyName 5 10 none none (some [7]) []
      rfl rfl (by decide) rfl rfl).1).trans (by rfl)

/-- A native predicate referencing only the field value (`_value > 10`): no
field-key reference and no ordinary tag-key reference. -/
def exprFieldValue : Expr := .binary .gt (.varRef fieldValueKey) (.intLit 10)

/-- The metaquery attribute bundle carrying that predicate. -/
def mqFieldValue : MetaqueryAttributes :=
  ⟨9, dbName1, DefaultRetentionPolicyName, 5, 10, some exprFieldValue⟩

/-- C8 counterexample: `measurementFields` only consults the field-KEY
component of `HasFieldKeyOrValue` (store.go line 448 discards the field-value
component), so a predicate referencing only a field value takes the fast
field-listing path instead of delegating to the scan fallback path, refuting
the "or field value" part of the claim at this concrete input. -/
theorem C8_counterexample :
    (HasFieldKeyOrValue exprFieldValue).2 = true ∧
    (HasFieldKeyOrValue exprFieldValue).1 = false ∧
    hasTagKey exprFieldValue = false ∧
    storeOneGroup.measurementFields mqFieldValue =
      .ok (some (NewStringSliceIterator ["idle", "load"])) ∧
    storeOneGroup.tagValuesSlow mqFieldValue fieldKey =
      .ok (some (NewStringSliceIterator ["slowfield"])) ∧
    ((Except.ok (some (NewStringSliceIterator ["idle", "load"])) :
        Except String (Option StringIterator)) ≠
      .ok (some (NewStringSliceIterator ["slowfield"]))) :=
  ⟨rfl, rfl, rfl, by rfl, by rfl, by simp [NewStringSliceIterator]⟩

/-- C8 (amended): `measurementFields` delegates to the scan fallback path
targeting the field-name tag whenever the predicate references the field key,
or references any ordinary tag key (a field-value-only predicate is not
checked here — such predicates are rejected earlier, before this function can
be reached); otherwise it resolves shards and drives the shard group's
iterator facility with a synthetic `_fieldKeys` query carrying the bundle's
organization, condition and authorizer, drains the iterator collecting field
names, sorts them, and applies a de-duplicating merge, yielding a strictly
sorted result. -/
theorem C8_amended_measurementFields (s : Store) (mq : MetaqueryAttributes) :
    (∀ p, mq.pred = some p → (HasFieldKeyOrValue p).1 = true →
      s.measurementFields mq = s.tagValuesSlow mq fieldKey) ∧
    (∀ p, mq.pred = some p → hasTagKey p = true →
      s.measurementFields mq = s.tagValuesSlow mq fieldKey) ∧
    (∀ (ids : Option (List Nat)) (points : List FloatPoint),
      mq.pred.any (fun p => (HasFieldKeyOrValue p).1) = false →
      mq.pred.any hasTagKey = false →
      s.findShardIDs mq.db mq.rp false mq.start mq.end_ = .ok ids →
      (ids.getD []).length ≠ 0 →
      s.TSDBStore.CreateIterator (ids.getD []) ⟨mq.db, mq.rp, "_fieldKeys"⟩
        ⟨mq.orgID, mq.pred, openAuth⟩ = .ok points →
      s.measurementFields mq =
        .ok (some (NewStringSliceIterator
          (MergeSortedStrings (List.insertionSort strLe (auxFieldNames points))))) ∧
      (MergeSortedStrings (List.insertionSort strLe (auxFieldNames points))).Sorted strLt) := by
  refine ⟨?_, ?_, ?_⟩
  · intro p hp hfk
    simp [Store.measurementFields, hp, hfk]
  · intro p hp htk
    by_cases hfk : (HasFieldKeyOrValue p).1 = true
    · simp [Store.measurementFields, hp, hfk]
    · simp [Store.measurementFields, hp, hfk, htk]
  · intro ids points hfk htk hfind hlen hiter
    constructor
    · simp [Store.measurementFields, hfk, htk, hfind, hlen, hiter]
    · exact mergeSortedStrings_sorted_lt _ (List.sorted_insertionSort _ _)

/-- Witness for the amended C8: with no predicate, the fast `_fieldKeys` path
collects, sorts and merge-deduplicates the engine's field names. -/
theorem C8_amended_witness :
    storeOneGroup.measurementFields ⟨9, dbName1, DefaultRetentionPolicyName, 5, 10, none⟩ =
      .ok (some (NewStringSliceIterator ["idle", "load"])) :=
  (((C8_amended_measurementFields storeOneGroup
      ⟨9, dbName1, DefaultRetentionPolicyName, 5, 10, none⟩).2.2 (some [7])
      [⟨["load"]⟩, ⟨[]⟩, ⟨["idle"]⟩, ⟨["load"]⟩]
      rfl rfl rfl (by decide) rfl).1).trans (by rfl)

/-- C10: `ReadFilter` writes the clamped start/end back into the request's
Range only on the success path; on every early return — missing source,
decode failure, validation error, shard-lookup error, zero shards, cursor
error, nil cursor — the request is left unchanged. -/
theorem C10_ReadFilter_range_frame (s : Store) (req : ReadFilterRequest) :
    ((∃ e, (s.ReadFilter req).1 = .error e) → (s.ReadFilter req).2 = req) ∧
    ((s.ReadFilter req).1 = .ok none → (s.ReadFilter req).2 = req) ∧
    (∀ source db rp cs ce rs,
      req.ReadSource = some (.ok source) →
      s.validateArgs source.OrganizationID source.BucketID req.Range.start req.Range.end_ =
        .ok (db, rp, cs, ce) →
      (s.ReadFilter req).1 = .ok (some rs) →
      (s.ReadFilter req).2 = { req with Range := ⟨cs, ce⟩ }) := by
  have key : ∀ (out : Except String (Option FilteredResultSet)) (req' : ReadFilterRequest),
      s.ReadFilter req = (out, req') →
      ((∀ rs, out ≠ .ok (some rs)) ∧ req' = req) ∨
      (∃ source db rp cs ce rs,
        req.ReadSource = some (.ok source) ∧
        s.validateArgs source.OrganizationID source.BucketID req.Range.start req.Range.end_ =
          .ok (db, rp, cs, ce) ∧
        out = .ok (some rs) ∧ req' = { req with Range := ⟨cs, ce⟩ }) := by
    intro out req' h
    unfold Store.ReadFilter at h
    repeat' split at h
    all_goals try (cases h; exact Or.inl ⟨fun rs hrs => by simp at hrs, rfl⟩)
    cases h
    subst_vars
    exact Or.inr ⟨_, _, _, _, _, _, by assumption, by assumption, rfl, rfl⟩
  obtain ⟨out, req', hpair⟩ : ∃ out req', s.ReadFilter req = (out, req') := ⟨_, _, rfl⟩
  rw [hpair]
  rcases key out req' hpair with ⟨hno, hreq⟩ |
    ⟨source, db, rp, cs, ce, rs, hsrc, hval, hout, hreq'⟩
  · refine ⟨fun _ => hreq, fun _ => hreq, ?_⟩
    intro source db rp cs ce rs0 hsrc0 hval0 hres
    exact absurd hres (hno rs0)
  · subst hout
    refine ⟨fun he => ?_, fun hn => ?_, ?_⟩
    · obtain ⟨e, he⟩ := he; exact absurd he (by simp)
    · exact absurd hn (by simp)
    · intro source0 db0 rp0 cs0 ce0 rs0 hsrc0 hval0 hres
      rw [hsrc0] at hsrc
      obtain rfl : source0 = source := by
        have := Option.some.inj hsrc
        exact Except.ok.inj this
      rw [hval0] at hval
      simp only [Except.ok.injEq, Prod.mk.injEq] at hval
      obtain ⟨-, -, h3, h4⟩ := hval
      rw [h3, h4]
      exact hreq'

/-- Witness for C10: on the success path the request's range is rewritten to
the clamped bounds. -/
theorem C10_witness :
    (storeOneGroup.ReadFilter ⟨some (.ok source1), ⟨-5, 0⟩, none⟩).2 =
      { ReadSource := some (.ok source1), Range := ⟨MinNanoTime, MaxNanoTime⟩,
        Predicate := none } :=
  (C10_ReadFilter_range_frame storeOneGroup ⟨some (.ok source1), ⟨-5, 0⟩, none⟩).2.2
    source1 dbName1 DefaultRetentionPolicyName MinNanoTime MaxNanoTime
    (NewFilteredResultSet MinNanoTime MaxNanoTime slowRows) rfl rfl rfl

end InfluxStorage
